import Mathlib

/-!
Shallow embedding of the trade-ledger core of the stock-portfolio-builder
web application: the watchlist / watchlist-item store, the form validation
layer (`portfolio_builder/public/forms.py`) and the view-layer operations
(`portfolio_builder/public/views/watchlist.py`), together with a model of
the background job dispatcher.

The database rows are modelled as lists of records; each view function is a
pure function from the durable store (plus the dispatcher state) to the new
store, the new dispatcher state and the list of flashed messages.  The ORM
query helpers (`get_watchlists`, `get_watch_items`) and the model layer
(`models.py`) are not part of the provided sources, so they are modelled
from the spec where noted.
-/

/-- Row of the `watchlist` table: id, owning user id, name. -/
structure Watchlist where
  id : Nat
  user_id : Nat
  name : String
deriving DecidableEq, Repr

/-- Row of the `watchlist_item` table (one trade record).  The model layer
(`models.py`) is not in the sources; the field set is taken from the
constructor calls in `views/watchlist.py` plus the `is_last_trade` flag the
views filter on.  Modelled from the spec: a freshly inserted entry carries
`is_last_trade = true` (spec 4.3: "Insert new LedgerEntry with
`is_current = true`"). -/
structure WatchlistItem where
  id : Nat
  watchlist_id : Nat
  ticker : String
  quantity : Int
  price : Rat
  side : String
  trade_date : Nat
  comments : String
  is_last_trade : Bool
deriving DecidableEq, Repr

/-- The durable store: the two tables plus auto-increment counters. -/
structure Store where
  watchlists : List Watchlist
  items : List WatchlistItem
  next_watchlist_id : Nat
  next_item_id : Nat
deriving DecidableEq, Repr

/-- Flashed messages, one constructor per `flash` call site in the views
(the message text is identified by its call site and payload). -/
inductive Msg where
  | watchlistAdded (name : String)
  | watchlistDeleted (name : String)
  | tickerAdded (ticker : String)
  | tickerDeleted (ticker : String)
  | duplicateName
  | fieldError (field : String)
deriving DecidableEq, Repr

/-- Modelled from the spec: state of the job dispatcher (`scheduler` /
`tasks.py` are not in the sources).  `pending` holds jobs currently
scheduled or running, keyed by job id; `calls` logs every `add_job`
invocation (id, ticker); `invocations` logs the tickers whose one-shot
price-fetch job was actually created (each created job invokes the fetch
collaborator exactly once). -/
structure Dispatcher where
  pending : List (String × String)
  calls : List (String × String)
  invocations : List String
deriving DecidableEq, Repr

/-- The job id the `add` view passes to `scheduler.add_job`: the literal
constant used at `views/watchlist.py:145`, identical for every ticker. -/
def job_id : String := "add_db_last100day_prices"

/-- Modelled from the spec (4.2): `schedule` is a no-op while a job with
the same key is already scheduled or running, otherwise it creates one job
which will invoke the fetch collaborator exactly once.  The key is the job
id supplied by the caller. -/
def add_job (d : Dispatcher) (id : String) (ticker : String) : Dispatcher :=
  if d.pending.any (fun j => j.1 == id) then
    { d with calls := d.calls ++ [(id, ticker)] }
  else
    { d with
        pending := d.pending ++ [(id, ticker)],
        calls := d.calls ++ [(id, ticker)],
        invocations := d.invocations ++ [ticker] }

/-- Modelled from the spec: `get_watchlists(filter=[Watchlist.name==n])`,
scoped to the current user (spec 6: watchlist operations are "scoped to
the current user"). -/
def get_watchlists (st : Store) (u : Nat) (name : String) : List Watchlist :=
  st.watchlists.filter (fun w => w.user_id == u && w.name == name)

/-- Join predicate of `get_watch_items`: the item belongs to a watchlist
of the current user with the given name, and has the given ticker. -/
def item_matches (ws : List Watchlist) (u : Nat) (watch_name ticker : String)
    (i : WatchlistItem) : Bool :=
  ws.any (fun w => w.id == i.watchlist_id && w.user_id == u && w.name == watch_name)
    && i.ticker == ticker

/-- Modelled from the spec: `get_watch_items` filtered by watchlist name
and ticker, all versions (the filter used by the `delete` view and by
`getEntriesByTicker`). -/
def get_watch_items_ticker (st : Store) (u : Nat) (watch_name ticker : String) :
    List WatchlistItem :=
  st.items.filter (item_matches st.watchlists u watch_name ticker)

/-- Current (is_last_trade) entries for a (watchlist name, ticker) pair:
the filter used by the `update` view. -/
def get_watch_items_current (st : Store) (u : Nat) (watch_name ticker : String) :
    List WatchlistItem :=
  st.items.filter (fun i =>
    item_matches st.watchlists u watch_name ticker i && i.is_last_trade)

/-- Submitted data of `WatchlistAddItemForm` (forms.py).  `watchlist` is
the SelectField's submitted value (forms.py:44); `trade_date` is `none`
when the field was left unspecified (the field's default is applied at
use).  Note the form class declares no `side` field and hence no
validator for it; the raw submitted `side` value is carried here because
the views read it. -/
structure ItemForm where
  watchlist : String
  ticker : String
  quantity : Int
  price : Rat
  side : String
  trade_date : Option Nat
  sector : String
  comments : String
deriving DecidableEq, Repr

/-- Validation errors of `WatchlistAddItemForm` (forms.py:42-72), in field
order: watchlist `InputRequired`, ticker `Length(2,20)` + `InputRequired`,
quantity `NumberRange(-10000000, 10000000)`, price
`NumberRange(0, 100000)`, sector `InputRequired`, comments `Optional` +
`Length(max=140)`.  The form has no validator mentioning `side`, and
`trade_date` has no validator (only a default). -/
def item_form_errors (f : ItemForm) : List Msg :=
  (if f.watchlist = "" then [Msg.fieldError "watchlist"] else [])
    ++ (if f.ticker.length < 2 ∨ f.ticker.length > 20 then [Msg.fieldError "ticker"] else [])
    ++ (if f.quantity < -10000000 ∨ f.quantity > 10000000 then [Msg.fieldError "quantity"] else [])
    ++ (if f.price < 0 ∨ f.price > 100000 then [Msg.fieldError "price"] else [])
    ++ (if f.sector = "" then [Msg.fieldError "sector"] else [])
    ++ (if f.comments.length > 140 then [Msg.fieldError "comments"] else [])

/-- `validate_on_submit` for the item form: no validation errors. -/
def validate_item_form (f : ItemForm) : Bool :=
  (item_form_errors f).isEmpty

/-- Validation errors of `WatchlistAddForm` (forms.py:22-39): name
`InputRequired` (stops the chain when the input is absent/empty),
`Length(1,25)`, then the inline `validate_name` duplicate check
(`filter_by(user_id=current_user.id, name=name.data)`), which is exact
string equality on the stored name. -/
def watchlist_form_errors (st : Store) (u : Nat) (name : String) : List Msg :=
  if name = "" then [Msg.fieldError "name"]
  else
    (if name.length > 25 then [Msg.fieldError "name"] else [])
      ++ (if st.watchlists.any (fun w => w.user_id == u && w.name == name)
          then [Msg.duplicateName] else [])

/-- Python truthiness of `watchlist.id` after
`next(iter(watchlists), Watchlist())`: some watchlist resolved and its id
is non-zero (the default `Watchlist()` has a falsy id). -/
def resolved (st : Store) (u : Nat) (name : String) : Bool :=
  match get_watchlists st u name with
  | [] => false
  | w :: _ => w.id != 0

namespace Views

/-- View `add_watchlist` (views/watchlist.py:70-91): on a valid form,
insert the watchlist and flash; otherwise flash the form errors. -/
def add_watchlist (st : Store) (u : Nat) (name : String) : Store × List Msg :=
  if (watchlist_form_errors st u name).isEmpty then
    ({ st with
        watchlists := st.watchlists ++ [⟨st.next_watchlist_id, u, name⟩],
        next_watchlist_id := st.next_watchlist_id + 1 },
     [Msg.watchlistAdded name])
  else (st, watchlist_form_errors st u name)

/-- View `delete_watchlist` (views/watchlist.py:94-112): resolve the name;
if it resolves (truthy id) delete the watchlist row — cascading deletion of
its items is modelled from the spec (spec 3: deletion "cascades deletion of
all its ledger entries") — and flash; otherwise fall through silently. -/
def delete_watchlist (st : Store) (u : Nat) (name : String) : Store × List Msg :=
  match get_watchlists st u name with
  | [] => (st, [])
  | w :: _ =>
    if w.id != 0 then
      ({ st with
          watchlists := st.watchlists.filter (fun x => x.id != w.id),
          items := st.items.filter (fun i => i.watchlist_id != w.id) },
       [Msg.watchlistDeleted name])
    else (st, [])

/-- View `add` (views/watchlist.py:115-151): on a valid form and a
resolving watchlist name, insert a new item (current flag set), commit,
flash, then call `scheduler.add_job` with the constant `job_id` and the
form's ticker; on an invalid form flash the errors; on an unresolved name
fall through silently.  `now` is the clock value used for the
`trade_date` default. -/
def add (st : Store) (d : Dispatcher) (u : Nat) (watch_name : String)
    (f : ItemForm) (now : Nat) : Store × Dispatcher × List Msg :=
  if validate_item_form f then
    match get_watchlists st u watch_name with
    | [] => (st, d, [])
    | w :: _ =>
      if w.id != 0 then
        let item : WatchlistItem :=
          { id := st.next_item_id
            watchlist_id := w.id
            ticker := f.ticker
            quantity := f.quantity
            price := f.price
            side := f.side
            trade_date := f.trade_date.getD now
            comments := f.comments
            is_last_trade := true }
        let st' : Store :=
          { st with items := st.items ++ [item], next_item_id := st.next_item_id + 1 }
        (st', add_job d job_id f.ticker, [Msg.tickerAdded f.ticker])
      else (st, d, [])
  else (st, d, item_form_errors f)

/-- View `update` (views/watchlist.py:154-192): on a valid form it fetches
the current item and builds a replacement, but the
`db.session.add_all([last_item, new_item])`, `db.session.commit()` and
`flash(...)` lines are commented out in the source, so the in-session flag
flip is rolled back at request teardown and the durable store is left
unchanged; on an invalid form it flashes the errors. -/
def update (st : Store) (_u : Nat) (_watch_name _ticker : String) (f : ItemForm) :
    Store × List Msg :=
  if validate_item_form f then (st, [])
  else (st, item_form_errors f)

/-- One iteration of the `delete` view's loop:
`db.session.delete(item); db.session.commit()` — removes the row with that
primary key and commits. -/
def delete_one (st : Store) (it : WatchlistItem) : Store :=
  { st with items := st.items.filter (fun j => j.id != it.id) }

/-- The `delete` view's loop over the matched items, one delete + commit
per row. -/
def delete_loop (st : Store) (l : List WatchlistItem) : Store :=
  l.foldl delete_one st

/-- View `delete` (views/watchlist.py:195-217): fetch all items matching
the watchlist name and ticker; if any, delete them one by one (committing
each) and flash; otherwise do nothing. -/
def delete (st : Store) (u : Nat) (watch_name ticker : String) : Store × List Msg :=
  if (get_watch_items_ticker st u watch_name ticker).isEmpty then (st, [])
  else (delete_loop st (get_watch_items_ticker st u watch_name ticker),
        [Msg.tickerDeleted ticker])

end Views

/-- A request-level trade operation, as dispatched by the routes. -/
inductive Op where
  | addOp (u : Nat) (watch_name : String) (f : ItemForm) (now : Nat)
  | updateOp (u : Nat) (watch_name ticker : String) (f : ItemForm)
  | deleteOp (u : Nat) (watch_name ticker : String)
deriving DecidableEq, Repr

/-- Apply one trade operation to the store and dispatcher. -/
def apply_op (sd : Store × Dispatcher) (op : Op) : Store × Dispatcher :=
  match op with
  | Op.addOp u n f now =>
    let r := Views.add sd.1 sd.2 u n f now
    (r.1, r.2.1)
  | Op.updateOp u n t f => ((Views.update sd.1 u n t f).1, sd.2)
  | Op.deleteOp u n t => ((Views.delete sd.1 u n t).1, sd.2)

/-- Apply a sequence of trade operations. -/
def apply_ops (sd : Store × Dispatcher) : List Op → Store × Dispatcher
  | [] => sd
  | op :: ops => apply_ops (apply_op sd op) ops

/-- Number of rows marked current for a (watchlist id, ticker) pair. -/
def current_count (st : Store) (wid : Nat) (t : String) : Nat :=
  (st.items.filter (fun i => i.watchlist_id == wid && i.ticker == t && i.is_last_trade)).length

/-- The core invariant claimed by the spec: at most one current row per
(watchlist, ticker) pair. -/
def CurrentInv (st : Store) : Prop :=
  ∀ wid t, current_count st wid t ≤ 1

/-- Guard under which an `add` is issued only for a pair with no prior
entry (the spec's "brand-new ticker in this watchlist" situation). -/
def guardedb (st : Store) (op : Op) : Bool :=
  match op with
  | Op.addOp u n f _ => (get_watch_items_ticker st u n f.ticker).isEmpty
  | _ => true

/-- Guard holding along a whole trajectory. -/
def guarded_all (sd : Store × Dispatcher) : List Op → Bool
  | [] => true
  | op :: ops => guardedb sd.1 op && guarded_all (apply_op sd op) ops

/-- Dispatcher with no pending jobs, no calls, no invocations. -/
def d0 : Dispatcher := ⟨[], [], []⟩

/-- Store holding one watchlist "Tech" (id 1) of user 7 and no items. -/
def st_tech : Store := ⟨[⟨1, 7, "Tech"⟩], [], 2, 1⟩

/-- Store holding watchlist "Tech" of user 7 with one current AAPL entry. -/
def st_tech1 : Store :=
  ⟨[⟨1, 7, "Tech"⟩], [⟨1, 1, "AAPL", 10, 150, "buy", 100, "", true⟩], 2, 2⟩

/-- A valid submission of the item form for AAPL. -/
def form_aapl : ItemForm :=
  { watchlist := "Tech", ticker := "AAPL", quantity := 10, price := 150,
    side := "buy", trade_date := some 100, sector := "Tech", comments := "" }

/-- A valid submission updating the AAPL position to quantity 15. -/
def form_upd : ItemForm :=
  { watchlist := "Tech", ticker := "AAPL", quantity := 15, price := 155,
    side := "buy", trade_date := some 101, sector := "Tech", comments := "" }

/-- A submission whose fields all satisfy their declared validators but
whose `side` value is not any enumerated trade side. -/
def form_bad_side : ItemForm :=
  { watchlist := "Tech", ticker := "AAPL", quantity := 10, price := 150,
    side := "NOT_A_SIDE", trade_date := some 100, sector := "Tech",
    comments := "" }

/-- A valid submission leaving the trade date unspecified. -/
def form_nodate : ItemForm :=
  { watchlist := "Tech", ticker := "AAPL", quantity := 10, price := 150,
    side := "buy", trade_date := none, sector := "Tech", comments := "" }

/-- An invalid submission: the ticker is below the minimum length 2. -/
def form_bad : ItemForm :=
  { watchlist := "Tech", ticker := "A", quantity := 10, price := 150,
    side := "buy", trade_date := some 100, sector := "Tech", comments := "" }

/-- The update view never changes the durable store: both branches return
the incoming store (the persisting statements are commented out in the
source). -/
theorem update_fst (st : Store) (u : Nat) (n t : String) (f : ItemForm) :
    (Views.update st u n t f).1 = st := by
  unfold Views.update
  split <;> rfl

/-- The delete view's loop equals a single filter dropping every row whose
id matches one of the fetched rows. -/
theorem delete_loop_eq (l : List WatchlistItem) (st : Store) :
    Views.delete_loop st l
      = { st with items := st.items.filter (fun j => l.all (fun it => j.id != it.id)) } := by
  induction l generalizing st with
  | nil =>
    simp [Views.delete_loop]
  | cons it l ih =>
    have hstep : Views.delete_loop st (it :: l)
        = Views.delete_loop (Views.delete_one st it) l := rfl
    rw [hstep, ih]
    simp only [Views.delete_one, List.filter_filter]
    congr 1
    apply List.filter_congr
    intro j _
    simp [List.all_cons, Bool.and_comm]

/-- Appending one row changes a pair's current count by 1 when the row is
current for that pair, else by 0. -/
theorem current_count_append_one (st : Store) (it : WatchlistItem) (wid : Nat) (t : String) :
    current_count { st with items := st.items ++ [it], next_item_id := st.next_item_id + 1 } wid t
      = current_count st wid t
        + (if (it.watchlist_id == wid && it.ticker == t && it.is_last_trade) = true
           then 1 else 0) := by
  unfold current_count
  simp only [List.filter_append, List.length_append]
  congr 1
  by_cases h : (it.watchlist_id == wid && it.ticker == t && it.is_last_trade) = true
  · simp [List.filter, h]
  · have hb : (it.watchlist_id == wid && it.ticker == t && it.is_last_trade) = false :=
      Bool.eq_false_iff.mpr h
    simp [List.filter, hb]

/-- Membership facts about the watchlist resolved by `get_watchlists`. -/
theorem get_watchlists_head (st : Store) (u : Nat) (n : String) (w : Watchlist)
    (l : List Watchlist) (h : get_watchlists st u n = w :: l) :
    w ∈ st.watchlists ∧ w.user_id = u ∧ w.name = n := by
  have hw : w ∈ get_watchlists st u n := by
    rw [h]; exact List.mem_cons_self w l
  unfold get_watchlists at hw
  rw [List.mem_filter] at hw
  refine ⟨hw.1, ?_, ?_⟩
  · have := hw.2
    simp only [Bool.and_eq_true, beq_iff_eq] at this
    exact this.1
  · have := hw.2
    simp only [Bool.and_eq_true, beq_iff_eq] at this
    exact this.2

/-- The add view preserves the one-current-row invariant when the pair had
no prior entry at all. -/
theorem add_preserves_inv (st : Store) (d : Dispatcher) (u : Nat) (n : String)
    (f : ItemForm) (now : Nat)
    (hg : (get_watch_items_ticker st u n f.ticker).isEmpty = true)
    (hinv : CurrentInv st) :
    CurrentInv (Views.add st d u n f now).1 := by
  have hnil : get_watch_items_ticker st u n f.ticker = [] :=
    List.isEmpty_iff.mp hg
  have hmt : ∀ i ∈ st.items, ¬ item_matches st.watchlists u n f.ticker i = true := by
    have := hnil
    unfold get_watch_items_ticker at this
    exact List.filter_eq_nil_iff.mp this
  unfold Views.add
  split
  · split
    · exact hinv
    case _ w l heq =>
      obtain ⟨hwmem, hwu, hwn⟩ := get_watchlists_head st u n w l heq
      split
      · intro wid t
        rw [current_count_append_one]
        by_cases hp :
            ((⟨st.next_item_id, w.id, f.ticker, f.quantity, f.price, f.side,
               f.trade_date.getD now, f.comments, true⟩ : WatchlistItem).watchlist_id == wid
              && (⟨st.next_item_id, w.id, f.ticker, f.quantity, f.price, f.side,
                   f.trade_date.getD now, f.comments, true⟩ : WatchlistItem).ticker == t
              && (⟨st.next_item_id, w.id, f.ticker, f.quantity, f.price, f.side,
                   f.trade_date.getD now, f.comments, true⟩ : WatchlistItem).is_last_trade) = true
        · have hp' := hp
          simp only [Bool.and_eq_true, beq_iff_eq] at hp'
          have hwid : w.id = wid := hp'.1.1
          have ht : f.ticker = t := hp'.1.2
          have h0 : current_count st wid t = 0 := by
            unfold current_count
            rw [List.length_eq_zero, List.filter_eq_nil_iff]
            intro i hi hpi
            simp only [Bool.and_eq_true, beq_iff_eq] at hpi
            apply hmt i hi
            unfold item_matches
            rw [Bool.and_eq_true, List.any_eq_true]
            constructor
            · exact ⟨w, hwmem, by
                simp only [Bool.and_eq_true, beq_iff_eq]
                exact ⟨⟨hwid.trans hpi.1.1.symm, hwu⟩, hwn⟩⟩
            · rw [beq_iff_eq]
              exact hpi.1.2.trans ht.symm
          rw [h0, if_pos hp]
        · rw [if_neg hp]
          simpa using hinv wid t
      · exact hinv
  · exact hinv

/-- The delete view preserves the one-current-row invariant: it only
removes rows. -/
theorem delete_preserves_inv (st : Store) (u : Nat) (n t : String)
    (hinv : CurrentInv st) :
    CurrentInv (Views.delete st u n t).1 := by
  unfold Views.delete
  split
  · exact hinv
  · rw [delete_loop_eq]
    intro wid t'
    refine Nat.le_trans ?_ (hinv wid t')
    unfold current_count
    exact List.Sublist.length_le (List.Sublist.filter _ (List.filter_sublist st.items))

/-- Any guarded trade operation preserves the one-current-row invariant. -/
theorem apply_op_inv (sd : Store × Dispatcher) (op : Op)
    (hg : guardedb sd.1 op = true) (hinv : CurrentInv sd.1) :
    CurrentInv (apply_op sd op).1 := by
  cases op with
  | addOp u n f now => exact add_preserves_inv sd.1 sd.2 u n f now hg hinv
  | updateOp u n t f =>
    have h : (apply_op sd (Op.updateOp u n t f)).1 = sd.1 := update_fst sd.1 u n t f
    rw [h]; exact hinv
  | deleteOp u n t => exact delete_preserves_inv sd.1 u n t hinv

/-- C1: the claim as stated is false on the code: the add view inserts a
new current row without checking for, or flipping, an existing current row
for the same pair, so two add requests for the same (watchlist, ticker)
leave two rows with the current flag set.  Concretely: starting from a
store with watchlist "Tech" (id 1) and no items, two adds of a valid AAPL
form leave `current_count = 2` for the pair (1, "AAPL"). -/
theorem C1_counterexample :
    current_count
      (apply_ops (st_tech, d0)
        [Op.addOp 7 "Tech" form_aapl 0, Op.addOp 7 "Tech" form_aapl 0]).1
      1 "AAPL" = 2 := by
  decide

/-- C1 (amended): for every watchlist and ticker, after any sequence of
add, update and delete operations in which every add for a pair is issued
only when no entry for that pair exists, at most one row per
(watchlist, ticker) pair has the current flag set, provided it held
initially. -/
theorem C1_invariant_guarded_ops (ops : List Op) (st : Store) (d : Dispatcher)
    (hg : guarded_all (st, d) ops = true) (hinv : CurrentInv st) :
    CurrentInv (apply_ops (st, d) ops).1 := by
  induction ops generalizing st d with
  | nil => exact hinv
  | cons op ops ih =>
    rw [guarded_all, Bool.and_eq_true] at hg
    have hinv' : CurrentInv (apply_op (st, d) op).1 :=
      apply_op_inv (st, d) op hg.1 hinv
    have hg' : guarded_all ((apply_op (st, d) op).1, (apply_op (st, d) op).2) ops = true :=
      hg.2
    exact ih (apply_op (st, d) op).1 (apply_op (st, d) op).2 hg' hinv'

/-- Witness for C1: a concrete guarded run (add a fresh AAPL trade, update
it, delete it) from the "Tech" store keeps the invariant. -/
theorem C1_invariant_guarded_ops_witness :
    CurrentInv
      (apply_ops (st_tech, d0)
        [Op.addOp 7 "Tech" form_aapl 0,
         Op.updateOp 7 "Tech" "AAPL" form_upd,
         Op.deleteOp 7 "Tech" "AAPL"]).1 :=
  C1_invariant_guarded_ops
    [Op.addOp 7 "Tech" form_aapl 0,
     Op.updateOp 7 "Tech" "AAPL" form_upd,
     Op.deleteOp 7 "Tech" "AAPL"]
    st_tech d0 (by decide)
    (by intro wid t; simp [current_count, st_tech])

/-- C2: evaluation of the update view at a store holding one current AAPL
entry in watchlist "Tech": a valid update submission leaves the durable
store exactly unchanged and flashes nothing — the flip of the old current
row and the insert of the new row never reach the database, because the
`db.session.add_all` / `db.session.commit` / `flash` statements are
commented out in the source (views/watchlist.py:187-189). -/
theorem C2_update_is_noop :
    (get_watch_items_current st_tech1 7 "Tech" "AAPL").length = 1
      ∧ Views.update st_tech1 7 "Tech" "AAPL" form_upd = (st_tech1, [])
      ∧ (Views.update st_tech1 7 "Tech" "AAPL" form_upd).1.items.length
          = st_tech1.items.length := by
  decide

/-- C5: the delete view removes every ledger entry for the
(watchlist, ticker) pair — afterwards `getEntriesByTicker` is empty — and
performs no dispatcher interaction (the dispatcher state is untouched). -/
theorem C5_delete_removes_all_versions (st : Store) (d : Dispatcher) (u : Nat)
    (n t : String) :
    get_watch_items_ticker (apply_op (st, d) (Op.deleteOp u n t)).1 u n t = []
      ∧ (apply_op (st, d) (Op.deleteOp u n t)).2 = d := by
  constructor
  · show get_watch_items_ticker (Views.delete st u n t).1 u n t = []
    unfold Views.delete
    split
    · exact List.isEmpty_iff.mp (by assumption)
    · rw [delete_loop_eq]
      unfold get_watch_items_ticker
      rw [List.filter_eq_nil_iff]
      intro j hj
      rw [List.mem_filter] at hj
      intro hm
      have hjm : j ∈ get_watch_items_ticker st u n t := by
        unfold get_watch_items_ticker
        exact List.mem_filter.mpr ⟨hj.1, hm⟩
      have hall := List.all_eq_true.mp hj.2 j hjm
      simp at hall
  · rfl

/-- C10: the delete view removes exactly the rows matching both the
watchlist name and the ticker (frame: every other row survives
unchanged), it leaves the watchlist table untouched, and when no row
matches it returns the store unchanged and reports no success message.
The hypothesis is the primary-key invariant of the items table. -/
theorem C10_delete_frame (st : Store) (u : Nat) (n t : String)
    (hnd : (st.items.map (fun i => i.id)).Nodup) :
    (Views.delete st u n t).1.items
        = st.items.filter (fun i => !(item_matches st.watchlists u n t i))
      ∧ (Views.delete st u n t).1.watchlists = st.watchlists
      ∧ (get_watch_items_ticker st u n t = [] →
          Views.delete st u n t = (st, [])) := by
  refine ⟨?_, ?_, ?_⟩
  · unfold Views.delete
    split
    · have hnil : get_watch_items_ticker st u n t = [] :=
        List.isEmpty_iff.mp (by assumption)
      unfold get_watch_items_ticker at hnil
      have hmem := List.filter_eq_nil_iff.mp hnil
      show st.items = _
      refine (List.filter_eq_self.mpr ?_).symm
      intro i hi
      have : ¬ item_matches st.watchlists u n t i = true := hmem i hi
      simp [Bool.eq_false_iff.mpr this]
    · rw [delete_loop_eq]
      show st.items.filter _ = st.items.filter _
      apply List.filter_congr
      intro j hj
      by_cases hm : item_matches st.watchlists u n t j = true
      · rw [hm, Bool.not_true]
        apply Bool.eq_false_iff.mpr
        intro hq
        have hjm : j ∈ get_watch_items_ticker st u n t := by
          unfold get_watch_items_ticker
          exact List.mem_filter.mpr ⟨hj, hm⟩
        have := List.all_eq_true.mp hq j hjm
        simp at this
      · rw [Bool.eq_false_iff.mpr hm, Bool.not_false]
        rw [List.all_eq_true]
        intro it hit
        unfold get_watch_items_ticker at hit
        rw [List.mem_filter] at hit
        rw [bne_iff_ne]
        intro heq
        have hij : it = j :=
          List.inj_on_of_nodup_map hnd hit.1 hj heq.symm
        exact hm (hij ▸ hit.2)
  · unfold Views.delete
    split
    · rfl
    · rw [delete_loop_eq]
  · intro h
    unfold Views.delete
    rw [if_pos (List.isEmpty_iff.mpr h)]

/-- Witness for C10: deleting AAPL from "Tech" in the one-entry store
yields exactly the frame filter. -/
theorem C10_delete_frame_witness :
    (Views.delete st_tech1 7 "Tech" "AAPL").1.items
      = st_tech1.items.filter
          (fun i => !(item_matches st_tech1.watchlists 7 "Tech" "AAPL" i)) :=
  (C10_delete_frame st_tech1 7 "Tech" "AAPL" (by decide)).1

/-- Calls logged by one `add_job` invocation: every invocation is logged,
accepted or deduplicated. -/
theorem add_job_calls (d : Dispatcher) (id t : String) :
    (add_job d id t).calls = d.calls ++ [(id, t)] := by
  unfold add_job
  split <;> rfl

/-- C3: the claim as stated is false on the code: the add view calls
`scheduler.add_job` on every successful insert, with no check whether a
prior entry for the (watchlist, ticker) pair exists.  Two adds of the same
valid AAPL form into "Tech" produce two schedule calls carrying "AAPL",
where the claim allows exactly one. -/
theorem C3_counterexample :
    ((apply_ops (st_tech, d0)
        [Op.addOp 7 "Tech" form_aapl 0, Op.addOp 7 "Tech" form_aapl 0]).2.calls.filter
      (fun c => c.2 == "AAPL")).length = 2 := by
  decide

/-- C3 (amended): every add request whose form validates and whose
watchlist name resolves triggers exactly one schedule call carrying the
form's ticker — regardless of whether a prior entry for the pair exists —
and every other add request triggers none. -/
theorem C3_schedule_per_add (st : Store) (d : Dispatcher) (u : Nat) (n : String)
    (f : ItemForm) (now : Nat) :
    (Views.add st d u n f now).2.1.calls
      = if validate_item_form f && resolved st u n
        then d.calls ++ [(job_id, f.ticker)]
        else d.calls := by
  unfold Views.add resolved
  cases heq : get_watchlists st u n with
  | nil =>
    by_cases hv : validate_item_form f = true <;> simp [hv, heq]
  | cons w l =>
    by_cases hv : validate_item_form f = true
    · by_cases hw : (w.id != 0) = true
      · simp [hv, heq, hw, add_job_calls]
      · simp [hv, heq, Bool.eq_false_iff.mpr hw]
    · simp [hv, heq]

/-- C4: the claim as stated is false on the code: the de-duplication key
is the job id, and the add view passes the same constant id for every
ticker, so two distinct tickers do not get distinct independent jobs —
scheduling MSFT while the AAPL job is pending is silently collapsed and
MSFT's prices are never fetched. -/
theorem C4_counterexample :
    (add_job (add_job d0 job_id "AAPL") job_id "MSFT").invocations = ["AAPL"]
      ∧ (add_job (add_job d0 job_id "AAPL") job_id "MSFT").pending
          = [(job_id, "AAPL")] := by
  decide

/-- C4 (amended): scheduling is de-duplicated by the dispatcher job id,
which the add view fixes to one constant for all tickers: starting from a
state with no pending job under that id, a first schedule call creates one
job (one fetch invocation of its ticker) and a second schedule call —
whether for the same or a distinct ticker — is a no-op that creates no job
and no invocation. -/
theorem C4_dedup_by_job_id (d : Dispatcher) (t₁ t₂ : String)
    (h : d.pending.any (fun j => j.1 == job_id) = false) :
    (add_job (add_job d job_id t₁) job_id t₂).invocations = d.invocations ++ [t₁]
      ∧ (add_job (add_job d job_id t₁) job_id t₂).pending
          = d.pending ++ [(job_id, t₁)] := by
  unfold add_job
  simp [h]

/-- Witness for C4: from the empty dispatcher, scheduling AAPL then MSFT
yields one job and one invocation, both for AAPL. -/
theorem C4_dedup_by_job_id_witness :
    (add_job (add_job d0 job_id "AAPL") job_id "MSFT").invocations
        = d0.invocations ++ ["AAPL"]
      ∧ (add_job (add_job d0 job_id "AAPL") job_id "MSFT").pending
          = d0.pending ++ [(job_id, "AAPL")] :=
  C4_dedup_by_job_id d0 "AAPL" "MSFT" (by decide)

/-- C6: the watchlist-add form reports the duplicate-name error exactly
when a watchlist with the same owner and the exact same name string
already exists (case-sensitive string equality), and on any validation
failure no watchlist row is created.  The hypothesis is the creation-path
invariant that no stored watchlist has an empty name (the `InputRequired`
validator admits none). -/
theorem C6_duplicate_name (st : Store) (u : Nat) (name : String)
    (h : ∀ w ∈ st.watchlists, w.name ≠ "") :
    (Msg.duplicateName ∈ watchlist_form_errors st u name
        ↔ ∃ w ∈ st.watchlists, w.user_id = u ∧ w.name = name)
      ∧ (watchlist_form_errors st u name ≠ [] →
          (Views.add_watchlist st u name).1 = st) := by
  constructor
  · unfold watchlist_form_errors
    by_cases hn : name = ""
    · rw [if_pos hn]
      constructor
      · intro hmem
        rw [List.mem_singleton] at hmem
        exact absurd hmem (by decide)
      · rintro ⟨w, hw, -, hwn⟩
        exact absurd (hwn.trans hn) (h w hw)
    · rw [if_neg hn, List.mem_append]
      constructor
      · intro hmem
        cases hmem with
        | inl hmem =>
          exfalso
          revert hmem
          split <;> simp
        | inr hmem =>
          revert hmem
          split
          · intro _
            obtain ⟨w, hw, hb⟩ := List.any_eq_true.mp (by assumption)
            simp only [Bool.and_eq_true, beq_iff_eq] at hb
            exact ⟨w, hw, hb.1, hb.2⟩
          · intro hmem
            simp at hmem
      · rintro ⟨w, hw, hu, hwn⟩
        right
        rw [if_pos]
        · exact List.mem_singleton.mpr rfl
        · rw [List.any_eq_true]
          exact ⟨w, hw, by simp [hu, hwn]⟩
  · intro herrs
    unfold Views.add_watchlist
    rw [if_neg (fun he => herrs (List.isEmpty_iff.mp he))]

/-- Witness for C6: creating "Tech" for user 7 when user 7 already owns a
watchlist named "Tech" reports the duplicate-name failure. -/
theorem C6_duplicate_name_witness :
    Msg.duplicateName ∈ watchlist_form_errors st_tech 7 "Tech" :=
  (C6_duplicate_name st_tech 7 "Tech" (by decide)).1.mpr
    ⟨⟨1, 7, "Tech"⟩, by simp [st_tech], rfl, rfl⟩

/-- C7: the claim as stated is false on the code: an add request for a
watchlist name that does not resolve is a no-op on the store, but no
failure is surfaced to the caller — the flash list is empty and the
response is a plain redirect.  Concretely: a valid AAPL form added to the
absent watchlist "Ghost" leaves store and dispatcher unchanged and
flashes nothing. -/
theorem C7_counterexample :
    Views.add st_tech d0 7 "Ghost" form_aapl 0 = (st_tech, d0, []) := by
  decide

/-- C7 (amended): operating on a watchlist name that does not resolve is a
silent no-op, never fatal: the add view leaves the store and dispatcher
unchanged and flashes only the form's own validation errors (no not-found
report), and the delete-watchlist view leaves the store unchanged and
flashes nothing. -/
theorem C7_notfound_silent_noop (st : Store) (d : Dispatcher) (u : Nat)
    (n : String) (f : ItemForm) (now : Nat)
    (hr : resolved st u n = false) :
    Views.add st d u n f now
        = (st, d, if validate_item_form f then [] else item_form_errors f)
      ∧ Views.delete_watchlist st u n = (st, []) := by
  unfold resolved at hr
  cases heq : get_watchlists st u n with
  | nil =>
    constructor
    · unfold Views.add
      by_cases hv : validate_item_form f = true <;> simp [hv, heq]
    · unfold Views.delete_watchlist
      rw [heq]
  | cons w l =>
    have hr' : (w.id != 0) = false := by rw [heq] at hr; exact hr
    have hid : w.id = 0 := by simpa using hr'
    constructor
    · unfold Views.add
      by_cases hv : validate_item_form f = true <;> simp [hv, heq, hid]
    · unfold Views.delete_watchlist
      rw [heq]
      simp [hid]

/-- Witness for C7: the amended behavior at the absent watchlist "Ghost"
with a valid form. -/
theorem C7_notfound_silent_noop_witness :
    Views.add st_tech d0 7 "Ghost" form_aapl 0
        = (st_tech, d0,
           if validate_item_form form_aapl then [] else item_form_errors form_aapl)
      ∧ Views.delete_watchlist st_tech 7 "Ghost" = (st_tech, []) :=
  C7_notfound_silent_noop st_tech d0 7 "Ghost" form_aapl 0 (by decide)

/-- C8: the claim as stated is false on the code: `WatchlistAddItemForm`
declares no `side` field and no validator constrains the submitted side
value, so a submission whose side is no member of any enumerated set is
accepted as long as the other fields pass. -/
theorem C8_counterexample :
    validate_item_form form_bad_side = true
      ∧ form_bad_side.side = "NOT_A_SIDE" := by
  decide

/-- C8 (amended): a trade submission is accepted exactly when the
watchlist selection is supplied, the ticker string has length 2-20, the
quantity is an integer within plus or minus 10000000, the price is a
decimal within 0 and 100000, the optional free-text comment has at most
140 characters and the (additional) sector field is non-empty; the side
value is not constrained by any validator, and when the trade timestamp
is unspecified every row the add view inserts carries the request clock
as its timestamp. -/
theorem C8_accepted_iff_bounds (f : ItemForm) (now : Nat) (st : Store)
    (d : Dispatcher) (u : Nat) (n : String) :
    (validate_item_form f = true
        ↔ (f.watchlist ≠ ""
            ∧ (2 ≤ f.ticker.length ∧ f.ticker.length ≤ 20)
            ∧ (-10000000 ≤ f.quantity ∧ f.quantity ≤ 10000000)
            ∧ (0 ≤ f.price ∧ f.price ≤ 100000)
            ∧ f.sector ≠ "" ∧ f.comments.length ≤ 140))
      ∧ (f.trade_date = none →
          ∀ i ∈ (Views.add st d u n f now).1.items,
            i ∈ st.items ∨ i.trade_date = now) := by
  constructor
  · unfold validate_item_form item_form_errors
    rw [List.isEmpty_iff]
    simp only [List.append_eq_nil, ite_eq_right_iff, List.cons_ne_nil,
      imp_false]
    push_neg
    tauto
  · intro hnone
    unfold Views.add
    split
    · split
      · intro i hi
        exact Or.inl hi
      · split
        · intro i hi
          simp only [List.mem_append, List.mem_singleton] at hi
          cases hi with
          | inl hi => exact Or.inl hi
          | inr hi =>
            right
            rw [hi, hnone]
            rfl
        · intro i hi
          exact Or.inl hi
    · intro i hi
      exact Or.inl hi

/-- Witness for C8: the no-date AAPL submission is accepted and the row
the add view inserts for it carries the request clock 55. -/
theorem C8_accepted_iff_bounds_witness :
    validate_item_form form_nodate = true
      ∧ ∀ i ∈ (Views.add st_tech d0 7 "Tech" form_nodate 55).1.items,
          i ∈ st_tech.items ∨ i.trade_date = 55 :=
  ⟨(C8_accepted_iff_bounds form_nodate 55 st_tech d0 7 "Tech").1.mpr
      (by refine ⟨?_, ⟨?_, ?_⟩, ⟨?_, ?_⟩, ⟨?_, ?_⟩, ?_, ?_⟩ <;> decide),
   (C8_accepted_iff_bounds form_nodate 55 st_tech d0 7 "Tech").2 rfl⟩

/-- C9: a price-fetch job is scheduled only together with a successful
insert: when form validation fails or the watchlist name does not resolve,
the add view leaves both the store and the dispatcher unchanged, and
whenever the dispatcher state changed at all, exactly one entry was
appended to the items table. -/
theorem C9_schedule_only_after_insert (st : Store) (d : Dispatcher) (u : Nat)
    (n : String) (f : ItemForm) (now : Nat) :
    ((validate_item_form f = false ∨ resolved st u n = false) →
        (Views.add st d u n f now).1 = st ∧ (Views.add st d u n f now).2.1 = d)
      ∧ ((Views.add st d u n f now).2.1 ≠ d →
          (Views.add st d u n f now).1.items.length = st.items.length + 1) := by
  unfold Views.add resolved
  cases heq : get_watchlists st u n with
  | nil =>
    by_cases hv : validate_item_form f = true
    · simp [hv, heq]
    · simp [hv, heq]
  | cons w l =>
    by_cases hv : validate_item_form f = true
    · by_cases hw : (w.id != 0) = true
      · constructor
        · intro hbad
          cases hbad with
          | inl hbad => exact absurd hv (by rw [hbad]; decide)
          | inr hbad =>
            have hfalse : (w.id != 0) = false := hbad
            rw [hw] at hfalse
            simp at hfalse
        · intro _
          simp [hv, heq, hw]
      · have hid : w.id = 0 := by simpa using Bool.eq_false_iff.mpr hw
        simp [hv, heq, hid]
    · simp [hv, heq]

/-- Witness for C9: an invalid submission (one-letter ticker) to "Tech"
changes neither the store nor the dispatcher. -/
theorem C9_schedule_only_after_insert_witness :
    (Views.add st_tech d0 7 "Tech" form_bad 0).1 = st_tech
      ∧ (Views.add st_tech d0 7 "Tech" form_bad 0).2.1 = d0 :=
  (C9_schedule_only_after_insert st_tech d0 7 "Tech" form_bad 0).1
    (Or.inl (by decide))
